import Mathlib

/-!
Verification development for the ny-state-landing-page-data build utility.

The repository fetches a fixed set of Google-Sheets tabs and normalizes each
tab into an array of sparse key/value records.  Three extractor variants exist
in the sources:

* `JsonMode` — the gviz JSON export path of `src/scripts/build-report-data.ts`
  (valid-column filtering plus a 10-consecutive-empty-row truncation);
* `CsvMode` — the CSV export path of `src/unnamed/part_000` (character-level
  line tokenizer plus a per-row field splitter);
* `LegacyJson` — the earlier gviz JSON path in the second document of
  `src/unnamed/part_000` (no row filtering).

JavaScript scalars appearing in cells are modelled by `JSVal`; `null` and
`undefined` are both modelled by `Option.none` (the sources only ever compare
them with `=== null` / `=== undefined` together, and `?.` treats them alike).
JavaScript objects are modelled as key/value lists in insertion order.
`String.prototype.trim` is modelled by `jsTrim`, trimming the ASCII whitespace
characters that can actually occur in these payloads.
-/

/-- A JavaScript scalar value as it appears in a gviz table cell. -/
inductive JSVal where
  | str : String → JSVal
  | num : Int → JSVal
  | bool : Bool → JSVal
deriving DecidableEq

/-- One gviz table cell: raw value `v` and optional formatted fallback `f`.
`none` models JavaScript `null`/`undefined`. -/
structure Cell where
  v : Option JSVal
  f : Option JSVal
deriving DecidableEq

/-- One gviz column; `label` is `none` when the column object has no label. -/
structure Col where
  label : Option String
deriving DecidableEq

/-- One gviz row; `c` is `none` when the row has no cell array
(`!row.c` in the source). Entries of the array may themselves be null. -/
structure GRow where
  c : Option (List (Option Cell))
deriving DecidableEq

/-- A parsed gviz table: `data.table` in the sources. -/
structure Table where
  cols : List Col
  rows : List GRow
deriving DecidableEq

/-- Whitespace test matching the characters `String.prototype.trim` removes
that can occur in these payloads. -/
def isJSWhitespace (ch : Char) : Bool :=
  ch == ' ' || ch == '\t' || ch == '\n' || ch == '\r'

/-- Model of JavaScript `String.prototype.trim`. -/
def jsTrim (s : String) : String :=
  ⟨((s.data.dropWhile isJSWhitespace).reverse.dropWhile isJSWhitespace).reverse⟩

namespace JsonMode

/-- A valid-column entry as built by the source:
`\x7b label: col.label?.trim(), index: i \x7d`. -/
structure VCol where
  label : Option String
  index : Nat
deriving DecidableEq

/-- `table.cols.map((col, i) => (\x7b label: col.label?.trim(), index: i \x7d))
.filter(col => col.label !== '')` from `fetchSheetData`. -/
def mkValidCols (cols : List Col) : List VCol :=
  (cols.enum.map fun p => VCol.mk (p.2.label.map jsTrim) p.1).filter
    fun vc => decide (vc.label ≠ some "")

/-- Modelled from the amended claim C2: the set of valid columns consists of
the columns whose label is missing together with those whose trimmed label is
non-empty — only a present label that trims to the empty string is excluded —
each with its original position. -/
def specValidCols (cols : List Col) : List VCol :=
  cols.enum.filterMap fun p =>
    match p.2.label with
    | none => some (VCol.mk none p.1)
    | some l => if jsTrim l = "" then none else some (VCol.mk (some (jsTrim l)) p.1)

/-- `row.c[i]`: out-of-range access yields `undefined`, and an in-range entry
may itself be null. -/
def cellAt (cells : List (Option Cell)) (i : Nat) : Option Cell :=
  (cells.get? i).join

/-- The effective value of a cell:
`cell?.v !== null && cell?.v !== undefined ? cell.v : (cell?.f ?? null)`. -/
def effVal (oc : Option Cell) : Option JSVal :=
  match oc with
  | none => none
  | some c => match c.v with
    | some w => some w
    | none => c.f

/-- `value === '' || value === null || value === undefined`. -/
def isEmptyVal (v : Option JSVal) : Bool :=
  match v with
  | none => true
  | some (JSVal.str s) => decide (s = "")
  | some _ => false

/-- JavaScript property-key coercion for `obj[col.label]`: an undefined label
becomes the key `"undefined"`. -/
def keyOf : Option String → String
  | some s => s
  | none => "undefined"

/-- `MAX_CONSECUTIVE_EMPTY` from `fetchSheetData`. -/
def MAX_CONSECUTIVE_EMPTY : Nat := 10

/-- The record built for one row: for each valid column take the effective
value and keep the pair only when the value is not `''`/null/undefined. -/
def buildObj (validCols : List VCol) (cells : List (Option Cell)) :
    List (String × JSVal) :=
  validCols.filterMap fun col =>
    match effVal (cellAt cells col.index) with
    | none => none
    | some w => if w = JSVal.str "" then none else some (keyOf col.label, w)

/-- The row loop of `fetchSheetData` with its consecutive-empty counter:
rows without a cell array are skipped, an empty first valid column increments
the counter (breaking at the threshold), data resets it and emits a record. -/
def rowLoop (validCols : List VCol) : List GRow → Nat → List (List (String × JSVal))
  | [], _ => []
  | row :: rest, ce =>
    match row.c, validCols.head? with
    | none, _ => rowLoop validCols rest ce
    | some _, none => rowLoop validCols rest ce
    | some cells, some firstCol =>
      if isEmptyVal (effVal (cellAt cells firstCol.index)) then
        if ce + 1 ≥ MAX_CONSECUTIVE_EMPTY then []
        else rowLoop validCols rest (ce + 1)
      else
        buildObj validCols cells :: rowLoop validCols rest 0

/-- The pure core of `fetchSheetData` in `src/scripts/build-report-data.ts`,
from the parsed `table` to the returned record array. -/
def fetchSheetData (t : Table) : List (List (String × JSVal)) :=
  let validCols := mkValidCols t.cols
  if validCols.length = 0 then [] else rowLoop validCols t.rows 0

end JsonMode

namespace CsvMode

/-- The line-tokenizing pass of `parseCSV`: character-by-character scan with
an in-quotes flag.  A doubled quote while in quotes is unescaped to one
literal quote (kept in the line), a lone quote toggles the flag and is kept,
an unquoted newline terminates a line (blank lines dropped), unquoted
carriage returns are dropped. -/
def lineTok : List Char → Bool → String → List String
  | [], _, cur => if jsTrim cur = "" then [] else [cur]
  | '"' :: '"' :: rest, true, cur => lineTok rest true (cur.push '"')
  | '"' :: rest, inQ, cur => lineTok rest (!inQ) (cur.push '"')
  | '\n' :: rest, false, cur =>
    (if jsTrim cur = "" then [] else [cur]) ++ lineTok rest false ""
  | '\r' :: rest, false, cur => lineTok rest false cur
  | ch :: rest, inQ, cur => lineTok rest inQ (cur.push ch)

/-- The non-blank lines of the CSV text, as collected by `parseCSV`. -/
def csvLines (csvText : String) : List String :=
  lineTok csvText.data false ""

/-- The field-splitting loop of `parseCSVRow`: a doubled quote while in
quotes yields one literal quote, a lone quote only toggles the flag (it is
not appended to the current field), an unquoted comma ends a field. -/
def rowSplit : List Char → Bool → String → List String
  | [], _, cur => [cur]
  | '"' :: '"' :: rest, true, cur => rowSplit rest true (cur.push '"')
  | '"' :: rest, inQ, cur => rowSplit rest (!inQ) cur
  | ',' :: rest, false, cur => cur :: rowSplit rest false ""
  | ch :: rest, inQ, cur => rowSplit rest inQ (cur.push ch)

/-- `parseCSVRow` from `src/unnamed/part_000`. -/
def parseCSVRow (row : String) : List String :=
  rowSplit row.data false ""

/-- The record built for one data row of `parseCSV`: for `j` below the header
count, pair `headers[j]?.trim()` with `values[j]?.trim() ?? ''` and keep the
pair only when the header is truthy and the value is not `''`. -/
def buildRow (headers values : List String) : List (String × String) :=
  (List.range headers.length).filterMap fun j =>
    match headers.get? j with
    | none => none
    | some h =>
      if jsTrim h ≠ "" ∧ (values.get? j).elim "" jsTrim ≠ "" then
        some (jsTrim h, (values.get? j).elim "" jsTrim)
      else none

/-- `parseCSV` from `src/unnamed/part_000`: tokenize into non-blank lines,
require at least two of them, take the first as the header row, and for each
further line skip it when all fields trim to empty, otherwise build its
record and keep it only when it has at least one populated key. -/
def parseCSV (csvText : String) : List (List (String × String)) :=
  if (csvLines csvText).length < 2 then []
  else
    match csvLines csvText with
    | [] => []
    | headerLine :: dataLines =>
      let headers := parseCSVRow headerLine
      dataLines.filterMap fun line =>
        let values := parseCSVRow line
        if values.any fun v => decide (jsTrim v ≠ "") then
          let obj := buildRow headers values
          if obj.isEmpty then none else some obj
        else none

end CsvMode

namespace LegacyJson

/-- `table.cols.map(col => col.label || '')` from the legacy JSON variant in
`src/unnamed/part_000`: a missing label (and an empty one) becomes `''`. -/
def headersOf (cols : List Col) : List String :=
  cols.map fun c => c.label.getD ""

/-- The `row.c.forEach` body of the legacy variant: skip cells whose header
is falsy, otherwise store `cell?.v ?? ''` under the header. -/
def buildLegacyObj (headers : List String) (cells : List (Option Cell)) :
    List (String × JSVal) :=
  cells.enum.filterMap fun p =>
    match headers.get? p.1 with
    | none => none
    | some h =>
      if h = "" then none
      else some (h, p.2.elim (JSVal.str "") fun c => c.v.getD (JSVal.str ""))

/-- The pure core of the legacy `fetchSheetData`: map every row to an object.
A row whose `c` is null makes `row.c.forEach` throw, modelled as `none`. -/
def fetchSheetData (t : Table) : Option (List (List (String × JSVal))) :=
  t.rows.mapM fun row => row.c.map fun cells => buildLegacyObj (headersOf t.cols) cells

end LegacyJson

namespace Assembler

/-- `Math.ceil(a / b)` for natural operands with `b > 0`. -/
def jsCeilDiv (a b : Nat) : Nat := (a + b - 1) / b

/-- `Math.ceil((now.getMonth() + 1) / 3)`; `month0` is the 0-indexed month
returned by `Date.prototype.getMonth`. -/
def quarterNumber (month0 : Nat) : Nat := jsCeilDiv (month0 + 1) 3

/-- The template literal `` `$\x7byear\x7dQ$\x7bquarterNumber\x7d` ``. -/
def reportingQuarterLabel (year month0 : Nat) : String :=
  toString year ++ "Q" ++ toString (quarterNumber month0)

/-- The wall-clock inputs `main` reads from `new Date()`. -/
structure DateParts where
  isoString : String
  year : Nat
  month0 : Nat
deriving DecidableEq

/-- The `meta` block of the output document. -/
structure MetaOut where
  generated_at : String
  source_sheet_id : String
  reporting_quarter : String
  reporting_year : Nat
  reporting_quarter_number : Nat
  schema_version : String
deriving DecidableEq

/-- The static `config` block of the output document. -/
structure ConfigOut where
  map_enabled : Bool
  share_preview_enabled : Bool
  default_location_id : String
deriving DecidableEq

/-- The output document `main` serializes to `public/report-data.json`;
`sheets` holds the seven sheet results positionally, each a record array. -/
structure Output where
  meta : MetaOut
  sheets : List (List (List (String × JSVal)))
  config : ConfigOut
deriving DecidableEq

/-- The `output` object assembled by `main`. -/
def mkOutput (sid : String) (now : DateParts)
    (sheets : List (List (List (String × JSVal)))) : Output :=
  Output.mk
    (MetaOut.mk now.isoString sid
      (reportingQuarterLabel now.year now.month0) now.year
      (quarterNumber now.month0) "2.0")
    sheets
    (ConfigOut.mk false true "london")

/-- `Promise.all` over already-settled fetch outcomes: rejects as soon as any
member rejected, otherwise resolves with all values. -/
def promiseAll {ε α : Type} : List (Except ε α) → Except ε (List α)
  | [] => Except.ok []
  | x :: xs =>
    match x with
    | Except.error e => Except.error e
    | Except.ok a =>
      match promiseAll xs with
      | Except.error e => Except.error e
      | Except.ok rest => Except.ok (a :: rest)

/-- The observable outcome of one run of `main`: the process exit code and
the document written to `public/report-data.json`, if any. -/
structure RunResult where
  exitCode : Nat
  written : Option Output
deriving DecidableEq

/-- The control flow of `main`: exit 1 before any write when the sheet id is
missing; await all seven fetches and, when any of them failed, take the catch
branch (exit 1, nothing written); otherwise write the assembled output. -/
def mainRun (sheetId : Option String) (now : DateParts)
    (fetches : List (Except String (List (List (String × JSVal))))) : RunResult :=
  match sheetId with
  | none => RunResult.mk 1 none
  | some sid =>
    match promiseAll fetches with
    | Except.error _ => RunResult.mk 1 none
    | Except.ok sheets => RunResult.mk 0 (some (mkOutput sid now sheets))

end Assembler

namespace JsonMode

theorem rowLoop_cons_none (vc : List VCol) (row : GRow) (rest : List GRow)
    (ce : Nat) (hc : row.c = none) :
    rowLoop vc (row :: rest) ce = rowLoop vc rest ce := by
  simp only [rowLoop, hc]

theorem rowLoop_cons_empty (fc : VCol) (vcs : List VCol) (row : GRow)
    (cells : List (Option Cell)) (rest : List GRow) (ce : Nat)
    (hc : row.c = some cells)
    (he : isEmptyVal (effVal (cellAt cells fc.index)) = true)
    (hlt : ce + 1 < 10) :
    rowLoop (fc :: vcs) (row :: rest) ce = rowLoop (fc :: vcs) rest (ce + 1) := by
  simp only [rowLoop, hc, List.head?_cons, he, if_true, MAX_CONSECUTIVE_EMPTY]
  rw [if_neg (by omega)]

theorem rowLoop_cons_break (fc : VCol) (vcs : List VCol) (row : GRow)
    (cells : List (Option Cell)) (rest : List GRow) (ce : Nat)
    (hc : row.c = some cells)
    (he : isEmptyVal (effVal (cellAt cells fc.index)) = true)
    (hge : 10 ≤ ce + 1) :
    rowLoop (fc :: vcs) (row :: rest) ce = [] := by
  simp only [rowLoop, hc, List.head?_cons, he, if_true, MAX_CONSECUTIVE_EMPTY]
  rw [if_pos (by omega)]

theorem rowLoop_cons_data (fc : VCol) (vcs : List VCol) (row : GRow)
    (cells : List (Option Cell)) (rest : List GRow) (ce : Nat)
    (hc : row.c = some cells)
    (he : isEmptyVal (effVal (cellAt cells fc.index)) = false) :
    rowLoop (fc :: vcs) (row :: rest) ce
      = buildObj (fc :: vcs) cells :: rowLoop (fc :: vcs) rest 0 := by
  simp only [rowLoop, hc, List.head?_cons, he]
  simp

theorem rowLoop_skip_replicate (fc : VCol) (vcs : List VCol) (erow : GRow)
    (ecells : List (Option Cell)) (hec : erow.c = some ecells)
    (hee : isEmptyVal (effVal (cellAt ecells fc.index)) = true) :
    ∀ (k ce : Nat) (rows : List GRow), ce + k ≤ 9 →
      rowLoop (fc :: vcs) (List.replicate k erow ++ rows) ce
        = rowLoop (fc :: vcs) rows (ce + k) := by
  intro k
  induction k with
  | zero => intro ce rows _; simp
  | succ k ih =>
    intro ce rows hle
    rw [List.replicate_succ, List.cons_append,
      rowLoop_cons_empty fc vcs erow ecells _ ce hec hee (by omega),
      ih (ce + 1) rows (by omega)]
    congr 1
    omega

end JsonMode

/-- C1: in JSON mode, for every input table (any column list with at least one
valid column, any rows), a row whose first valid column's effective value is
empty/null/undefined is skipped and increments the consecutive-empty counter;
a row with first-column data resets the counter to zero and yields a record;
9 consecutive empty rows followed by a row with valid first-column data still
include that valid row in the result, while 10 consecutive empty rows stop
processing so that no later row produces a record. -/
theorem c1_consecutive_empty_threshold
    (cols : List Col) (fc : JsonMode.VCol) (vcs : List JsonMode.VCol)
    (hvc : JsonMode.mkValidCols cols = fc :: vcs)
    (erow : GRow) (ecells : List (Option Cell)) (hec : erow.c = some ecells)
    (hee : JsonMode.isEmptyVal (JsonMode.effVal (JsonMode.cellAt ecells fc.index)) = true)
    (vrow : GRow) (vcells : List (Option Cell)) (hvcell : vrow.c = some vcells)
    (hvv : JsonMode.isEmptyVal (JsonMode.effVal (JsonMode.cellAt vcells fc.index)) = false)
    (rest rest2 : List GRow) (ce : Nat) (hce : ce + 1 < 10) :
    JsonMode.rowLoop (fc :: vcs) (erow :: rest) ce
        = JsonMode.rowLoop (fc :: vcs) rest (ce + 1)
      ∧ JsonMode.rowLoop (fc :: vcs) (vrow :: rest) ce
        = JsonMode.buildObj (fc :: vcs) vcells :: JsonMode.rowLoop (fc :: vcs) rest 0
      ∧ JsonMode.fetchSheetData (Table.mk cols (List.replicate 9 erow ++ vrow :: rest))
        = JsonMode.buildObj (fc :: vcs) vcells :: JsonMode.rowLoop (fc :: vcs) rest 0
      ∧ JsonMode.fetchSheetData (Table.mk cols (List.replicate 10 erow ++ rest2)) = [] := by
  refine ⟨JsonMode.rowLoop_cons_empty fc vcs erow ecells rest ce hec hee hce,
    JsonMode.rowLoop_cons_data fc vcs vrow vcells rest ce hvcell hvv, ?_, ?_⟩
  · show JsonMode.fetchSheetData _ = _
    simp only [JsonMode.fetchSheetData, hvc]
    rw [if_neg (by simp)]
    rw [JsonMode.rowLoop_skip_replicate fc vcs erow ecells hec hee 9 0 _ (by omega)]
    exact JsonMode.rowLoop_cons_data fc vcs vrow vcells rest 9 hvcell hvv
  · show JsonMode.fetchSheetData _ = _
    simp only [JsonMode.fetchSheetData, hvc]
    rw [if_neg (by simp)]
    have h10 : List.replicate 10 erow ++ rest2
        = List.replicate 9 erow ++ (erow :: rest2) := by
      rw [List.replicate_succ', List.append_assoc, List.singleton_append]
    rw [h10, JsonMode.rowLoop_skip_replicate fc vcs erow ecells hec hee 9 0 _ (by omega)]
    exact JsonMode.rowLoop_cons_break fc vcs erow ecells rest2 9 hec hee (by omega)

/-- Witness for C1 at a concrete table: one labelled column, empty rows with
an empty cell list, a data row whose first cell holds the string `x`. -/
theorem c1_consecutive_empty_threshold_witness :
    JsonMode.fetchSheetData
        (Table.mk [Col.mk (some "A")]
          (List.replicate 10 (GRow.mk (some []))
            ++ [GRow.mk (some [some (Cell.mk (some (JSVal.str "x")) none)])])) = [] :=
  (c1_consecutive_empty_threshold [Col.mk (some "A")] (JsonMode.VCol.mk (some "A") 0) []
    (by decide) (GRow.mk (some [])) [] rfl (by decide)
    (GRow.mk (some [some (Cell.mk (some (JSVal.str "x")) none)]))
    [some (Cell.mk (some (JSVal.str "x")) none)] rfl (by decide)
    [] [GRow.mk (some [some (Cell.mk (some (JSVal.str "x")) none)])] 0
    (by omega)).2.2.2

/-- C10: in JSON mode, a row whose cell array is missing/null is skipped
without producing a record and without changing the consecutive-empty
counter, for any counter value, any remaining rows and any column set, so it
never counts toward the truncation threshold and does not interrupt a run of
empty rows around it. -/
theorem c10_null_cell_array_skipped (vc : List JsonMode.VCol) (cols : List Col)
    (row : GRow) (h : row.c = none) (rest : List GRow) (rows : List GRow) (ce : Nat) :
    JsonMode.rowLoop vc (row :: rest) ce = JsonMode.rowLoop vc rest ce
      ∧ JsonMode.fetchSheetData (Table.mk cols (row :: rows))
        = JsonMode.fetchSheetData (Table.mk cols rows) := by
  refine ⟨JsonMode.rowLoop_cons_none vc row rest ce h, ?_⟩
  simp only [JsonMode.fetchSheetData]
  by_cases hvc : (JsonMode.mkValidCols cols).length = 0
  · rw [if_pos hvc, if_pos hvc]
  · rw [if_neg hvc, if_neg hvc,
      JsonMode.rowLoop_cons_none (JsonMode.mkValidCols cols) row rows 0 h]

/-- Witness for C10 at a concrete table with one labelled column. -/
theorem c10_null_cell_array_skipped_witness :
    JsonMode.rowLoop [JsonMode.VCol.mk (some "A") 0] [GRow.mk none] 3
        = JsonMode.rowLoop [JsonMode.VCol.mk (some "A") 0] [] 3
      ∧ JsonMode.fetchSheetData (Table.mk [Col.mk (some "A")] [GRow.mk none])
        = JsonMode.fetchSheetData (Table.mk [Col.mk (some "A")] []) :=
  c10_null_cell_array_skipped [JsonMode.VCol.mk (some "A") 0] [Col.mk (some "A")]
    (GRow.mk none) rfl [] [] 3

namespace JsonMode

theorem mapFilter_eq_specFilterMap (ps : List (Nat × Col)) :
    (ps.map fun p => VCol.mk (p.2.label.map jsTrim) p.1).filter
        (fun vc => decide (vc.label ≠ some ""))
      = ps.filterMap fun p =>
          match p.2.label with
          | none => some (VCol.mk none p.1)
          | some l => if jsTrim l = "" then none
            else some (VCol.mk (some (jsTrim l)) p.1) := by
  induction ps with
  | nil => rfl
  | cons p ps ih =>
    obtain ⟨i, col⟩ := p
    obtain ⟨lbl⟩ := col
    cases lbl with
    | none => simpa using ih
    | some l =>
      by_cases h : jsTrim l = ""
      · simpa [h] using ih
      · simpa [h] using ih

end JsonMode

/-- C2 counterexample: a column whose label is missing passes the source's
`col.label !== ''` filter, so a table whose only column has no label still has
a valid column and yields a non-empty sheet result (keyed `"undefined"`),
contradicting the claim that only columns with a non-empty trimmed label are
valid and that such a table's result is empty. -/
theorem c2_missing_label_counterexample :
    JsonMode.mkValidCols [Col.mk none] = [JsonMode.VCol.mk none 0]
      ∧ JsonMode.fetchSheetData
          (Table.mk [Col.mk none]
            [GRow.mk (some [some (Cell.mk (some (JSVal.str "x")) none)])])
        = [[("undefined", JSVal.str "x")]] := by
  decide

/-- C2 amended: for every input table, the set of valid columns consists of
the columns whose label is missing together with those whose trimmed label is
non-empty (only a present label trimming to the empty string is excluded),
and if the set of valid columns is empty the sheet result is empty. -/
theorem c2_valid_columns_amended (cols : List Col) (t : Table)
    (h : JsonMode.mkValidCols t.cols = []) :
    JsonMode.mkValidCols cols = JsonMode.specValidCols cols
      ∧ JsonMode.fetchSheetData t = [] := by
  constructor
  · exact JsonMode.mapFilter_eq_specFilterMap cols.enum
  · simp [JsonMode.fetchSheetData, h]

/-- Witness for C2 amended at a one-column table and an empty table. -/
theorem c2_valid_columns_amended_witness :
    JsonMode.mkValidCols [Col.mk (some "A")]
        = JsonMode.specValidCols [Col.mk (some "A")]
      ∧ JsonMode.fetchSheetData (Table.mk [] []) = [] :=
  c2_valid_columns_amended [Col.mk (some "A")] (Table.mk [] []) rfl

namespace CsvMode

theorem rowSplit_open_quote (rest : List Char) (cur : String) :
    rowSplit ('"' :: rest) false cur = rowSplit rest true cur := by
  cases rest with
  | nil => rfl
  | cons c rest' =>
    by_cases hc : c = '"'
    · subst hc; rfl
    · simp [rowSplit, hc]

theorem rowSplit_quoted_char (ch : Char) (h : ch ≠ '"') (rest : List Char)
    (cur : String) :
    rowSplit (ch :: rest) true cur = rowSplit rest true (cur.push ch) := by
  simp [rowSplit, h]

theorem rowSplit_quoted_run (cs : List Char) :
    ∀ (cur : String), (∀ c ∈ cs, c ≠ '"') →
      rowSplit (cs ++ ['"']) true cur = [String.mk (cur.data ++ cs)] := by
  induction cs with
  | nil => intro cur _; simp; rfl
  | cons c cs ih =>
    intro cur h
    rw [List.cons_append,
      rowSplit_quoted_char c (h c (List.mem_cons_self c cs)) (cs ++ ['"']) cur,
      ih (cur.push c) fun c' hc' => h c' (List.mem_cons_of_mem c hc')]
    simp

end CsvMode

/-- C3 counterexample: the row splitter does strip quote characters that are
not part of escape handling — the line `"a"` splits into the single field `a`
with both quotes removed, so the field does not keep the quote characters of
the input. -/
theorem c3_row_splitter_counterexample :
    CsvMode.parseCSVRow "\"a\"" = ["a"] ∧ ("a" : String) ≠ "\"a\"" := by
  decide

/-- C3 amended: in CSV mode, the row splitter strips the quote characters
that toggle the quoting state from the fields it outputs (only a doubled
quote while inside quotes contributes one literal quote), so its quote
handling differs from the line tokenizer, which keeps toggling quotes in its
output: for any string without quote characters, splitting the line that is
that string wrapped in quotes yields exactly the unquoted string as the
single field, with commas inside it protected. -/
theorem c3_row_splitter_strips_quotes (s : String)
    (h : ∀ c ∈ s.data, c ≠ '"') :
    CsvMode.parseCSVRow ("\"" ++ s ++ "\"") = [s] := by
  show CsvMode.rowSplit ("\"" ++ s ++ "\"").data false "" = [s]
  have hd : ("\"" ++ s ++ "\"").data = '"' :: (s.data ++ ['"']) := rfl
  rw [hd, CsvMode.rowSplit_open_quote (s.data ++ ['"']) "",
    CsvMode.rowSplit_quoted_run s.data "" h]
  rfl

/-- Witness for C3 amended at the quote-free field `a,b`. -/
theorem c3_row_splitter_strips_quotes_witness :
    CsvMode.parseCSVRow ("\"" ++ "a,b" ++ "\"") = ["a,b"] :=
  c3_row_splitter_strips_quotes "a,b" (by decide)

/-- C4 counterexample: parsing a sheet whose data row is the quoted field
`"he said ""hi"""` yields the field value `he said hi`, not `he said "hi"`:
the line tokenizer has already unescaped the doubled quotes, and the row
splitter then strips the remaining quotes as quoting toggles. -/
theorem c4_doubled_quote_counterexample :
    CsvMode.parseCSV "A\n\"he said \"\"hi\"\"\"" = [[("A", "he said hi")]]
      ∧ ("he said hi" : String) ≠ "he said \"hi\"" := by
  decide

/-- C4 amended: in CSV mode, the quoted field `"he said ""hi"""` produces the
field value `he said hi` — the doubled quote is unescaped by the line
tokenizer and the resulting lone quotes are then stripped by the row splitter
— while a field quoted around a comma such as `"a,b"` parses as a single
field equal to `a,b`. -/
theorem c4_quoted_field_values :
    CsvMode.parseCSV "A\n\"he said \"\"hi\"\"\"" = [[("A", "he said hi")]]
      ∧ CsvMode.parseCSV "A\n\"a,b\"" = [[("A", "a,b")]] := by
  decide

/-- C8: the CSV extractor is a total function of the input text — it is
defined for every string, so every input, malformed CSV included, yields a
(possibly empty) record list rather than an error — and whenever the input
tokenizes to fewer than two non-blank lines (for example a header-only
input), the result is the empty list. -/
theorem c8_csv_total_header_only (s : String)
    (h : (CsvMode.csvLines s).length < 2) :
    CsvMode.parseCSV s = [] := by
  unfold CsvMode.parseCSV
  rw [if_pos h]

/-- Witness for C8 at a header-only input. -/
theorem c8_csv_total_header_only_witness :
    CsvMode.parseCSV "Name,Value" = [] :=
  c8_csv_total_header_only "Name,Value" (by decide)

/-- C9: the CSV input with header line `Name,Value`, data row `Foo,1` and
blank data row `,` yields exactly one record, mapping `Name` to `Foo` and
`Value` to `1`; the blank row yields no populated keys and is dropped. -/
theorem c9_end_to_end_blank_row_dropped :
    CsvMode.parseCSV "Name,Value\nFoo,1\n," = [[("Name", "Foo"), ("Value", "1")]] := by
  decide

namespace JsonMode

theorem mem_buildObj_snd_ne (vc : List VCol) (cells : List (Option Cell))
    (p : String × JSVal) (h : p ∈ buildObj vc cells) : p.2 ≠ JSVal.str "" := by
  simp only [buildObj, List.mem_filterMap] at h
  obtain ⟨col, _, heq⟩ := h
  cases hev : effVal (cellAt cells col.index) with
  | none => rw [hev] at heq; simp at heq
  | some w =>
    rw [hev] at heq
    dsimp only at heq
    by_cases hw : w = JSVal.str ""
    · rw [if_pos hw] at heq; simp at heq
    · rw [if_neg hw] at heq
      injection heq with h2
      rw [← h2]
      exact hw

theorem mem_rowLoop_buildObj (vc : List VCol) (rows : List GRow) :
    ∀ (ce : Nat) (rec : List (String × JSVal)), rec ∈ rowLoop vc rows ce →
      ∃ cells, rec = buildObj vc cells := by
  induction rows with
  | nil => intro ce rec h; simp [rowLoop] at h
  | cons row rest ih =>
    intro ce rec h
    cases hc : row.c with
    | none =>
      rw [rowLoop_cons_none vc row rest ce hc] at h
      exact ih ce rec h
    | some cells =>
      cases hvc : vc.head? with
      | none =>
        simp only [rowLoop, hc, hvc] at h
        exact ih ce rec h
      | some fc =>
        simp only [rowLoop, hc, hvc] at h
        by_cases he : isEmptyVal (effVal (cellAt cells fc.index)) = true
        · simp only [he, if_true] at h
          split at h
          · simp at h
          · exact ih (ce + 1) rec h
        · have he' : isEmptyVal (effVal (cellAt cells fc.index)) = false := by
            simpa using he
          simp only [he', Bool.false_eq_true, if_false, List.mem_cons] at h
          rcases h with h | h
          · exact ⟨cells, h⟩
          · exact ih 0 rec h

end JsonMode

namespace CsvMode

theorem mem_buildRow_snd_ne (headers values : List String) (p : String × String)
    (h : p ∈ buildRow headers values) : p.2 ≠ "" := by
  simp only [buildRow, List.mem_filterMap, List.mem_range] at h
  obtain ⟨j, _, heq⟩ := h
  cases hh : headers.get? j with
  | none => rw [hh] at heq; simp at heq
  | some h0 =>
    rw [hh] at heq
    dsimp only at heq
    by_cases hcond : jsTrim h0 ≠ "" ∧ (values.get? j).elim "" jsTrim ≠ ""
    · rw [if_pos hcond] at heq
      injection heq with h2
      rw [← h2]
      exact hcond.2
    · rw [if_neg hcond] at heq
      simp at heq

theorem mem_parseCSV_buildRow (s : String) (rec : List (String × String))
    (h : rec ∈ parseCSV s) :
    ∃ headers values, rec = buildRow headers values := by
  unfold parseCSV at h
  by_cases hlen : (csvLines s).length < 2
  · rw [if_pos hlen] at h
    simp at h
  · rw [if_neg hlen] at h
    cases hls : csvLines s with
    | nil => rw [hls] at h; simp at h
    | cons headerLine dataLines =>
      rw [hls] at h
      simp only [List.mem_filterMap] at h
      obtain ⟨line, _, heq⟩ := h
      split at heq
      · split at heq
        · simp at heq
        · injection heq with h2
          exact ⟨parseCSVRow headerLine, parseCSVRow line, h2.symm⟩
      · simp at heq

end CsvMode

/-- C5 counterexample: the legacy JSON extractor variant stores
`cell?.v ?? ''` without filtering, so a row whose cell has a null raw value
produces a record whose key `A` maps to the empty string — a record with an
empty-string value, contradicting the claim for "any extractor variant". -/
theorem c5_legacy_empty_value_counterexample :
    LegacyJson.fetchSheetData
        (Table.mk [Col.mk (some "A")] [GRow.mk (some [some (Cell.mk none none)])])
      = some [[("A", JSVal.str "")]] := by
  decide

/-- C5 amended: for every sheet result produced by the filtering JSON
extractor or by the CSV extractor, no record pairs a key with the empty
string — every stored value passed the non-empty filter; the legacy JSON
variant, however, can store the empty string when a cell's raw value is
null. -/
theorem c5_no_empty_values_amended (t : Table) (s : String) :
    (∀ rec ∈ JsonMode.fetchSheetData t, ∀ p ∈ rec, p.2 ≠ JSVal.str "")
      ∧ (∀ rec ∈ CsvMode.parseCSV s, ∀ p ∈ rec, p.2 ≠ "") := by
  constructor
  · intro rec hrec p hp
    have hb : ∃ cells, rec = JsonMode.buildObj (JsonMode.mkValidCols t.cols) cells := by
      simp only [JsonMode.fetchSheetData] at hrec
      split at hrec
      · simp at hrec
      · exact JsonMode.mem_rowLoop_buildObj _ _ _ _ hrec
    obtain ⟨cells, rfl⟩ := hb
    exact JsonMode.mem_buildObj_snd_ne _ _ _ hp
  · intro rec hrec p hp
    obtain ⟨headers, values, rfl⟩ := CsvMode.mem_parseCSV_buildRow s rec hrec
    exact CsvMode.mem_buildRow_snd_ne _ _ _ hp

/-- Witness for C5 amended at concrete one-record outputs of both
extractors. -/
theorem c5_no_empty_values_amended_witness :
    (("A", JSVal.str "x") : String × JSVal).2 ≠ JSVal.str ""
      ∧ (("Name", "Foo") : String × String).2 ≠ "" :=
  ⟨(c5_no_empty_values_amended
      (Table.mk [Col.mk (some "A")]
        [GRow.mk (some [some (Cell.mk (some (JSVal.str "x")) none)])]) "").1
      [("A", JSVal.str "x")] (by decide) ("A", JSVal.str "x") (by decide),
    (c5_no_empty_values_amended (Table.mk [] []) "Name,Value\nFoo,1\n,").2
      [("Name", "Foo"), ("Value", "1")] (by decide) ("Name", "Foo") (by decide)⟩

/-- C6: for every month (0-indexed, below 12) and year, the quarter number
computed by the assembler is the ceiling of the 1-indexed month divided by 3
— characterized by `month1 ≤ 3·q < month1 + 3` — so months 1–3 give
quarter 1, 4–6 give 2, 7–9 give 3 and 10–12 give 4, the quarter lies in
1..4, and the label is the decimal year concatenated with `Q` and the
quarter number. -/
theorem c6_reporting_quarter (year month0 : Nat) (h : month0 < 12) :
    (month0 + 1 ≤ 3 * Assembler.quarterNumber month0
        ∧ 3 * Assembler.quarterNumber month0 < month0 + 1 + 3)
      ∧ (month0 + 1 ≤ 3 → Assembler.quarterNumber month0 = 1)
      ∧ (4 ≤ month0 + 1 → month0 + 1 ≤ 6 → Assembler.quarterNumber month0 = 2)
      ∧ (7 ≤ month0 + 1 → month0 + 1 ≤ 9 → Assembler.quarterNumber month0 = 3)
      ∧ (10 ≤ month0 + 1 → Assembler.quarterNumber month0 = 4)
      ∧ 1 ≤ Assembler.quarterNumber month0
      ∧ Assembler.quarterNumber month0 ≤ 4
      ∧ Assembler.reportingQuarterLabel year month0
        = toString year ++ "Q" ++ toString (Assembler.quarterNumber month0) := by
  unfold Assembler.quarterNumber Assembler.jsCeilDiv Assembler.reportingQuarterLabel
  refine ⟨by omega, by omega, by omega, by omega, by omega, by omega, by omega, rfl⟩

/-- Witness for C6 at July 2024 (0-indexed month 6). -/
theorem c6_reporting_quarter_witness :
    Assembler.quarterNumber 6 = 3 :=
  ((c6_reporting_quarter 2024 6 (by omega)).2.2.2.1) (by omega) (by omega)

/-- C7: whenever any one of the sheet fetches has failed, the run of `main`
takes the catch branch: the process exits with the non-zero status 1 and no
output document is written — there is no partial snapshot. -/
theorem c7_all_or_nothing (sheetId : Option String) (now : Assembler.DateParts)
    (fetches : List (Except String (List (List (String × JSVal)))))
    (h : ∃ r ∈ fetches, ∃ e, r = Except.error e) :
    (Assembler.mainRun sheetId now fetches).exitCode = 1
      ∧ (Assembler.mainRun sheetId now fetches).written = none := by
  cases sheetId with
  | none => exact ⟨rfl, rfl⟩
  | some sid =>
    have herr : ∃ e, Assembler.promiseAll fetches = Except.error e := by
      obtain ⟨r, hmem, e, rfl⟩ := h
      induction fetches with
      | nil => simp at hmem
      | cons x xs ih =>
        rcases List.mem_cons.mp hmem with rfl | hmem'
        · exact ⟨e, rfl⟩
        · cases x with
          | error e' => exact ⟨e', rfl⟩
          | ok a =>
            obtain ⟨e'', he''⟩ := ih hmem'
            refine ⟨e'', ?_⟩
            simp only [Assembler.promiseAll, he'']
    obtain ⟨e, he⟩ := herr
    simp [Assembler.mainRun, he]

/-- Witness for C7 at a single failed fetch. -/
theorem c7_all_or_nothing_witness :
    (Assembler.mainRun (some "sheet-id") (Assembler.DateParts.mk "t" 2024 0)
        [Except.error "Failed to fetch"]).exitCode = 1
      ∧ (Assembler.mainRun (some "sheet-id") (Assembler.DateParts.mk "t" 2024 0)
        [Except.error "Failed to fetch"]).written = none :=
  c7_all_or_nothing (some "sheet-id") (Assembler.DateParts.mk "t" 2024 0)
    [Except.error "Failed to fetch"]
    ⟨Except.error "Failed to fetch", List.mem_singleton.mpr rfl, "Failed to fetch", rfl⟩
